import Mathlib

/-!
Verification development for the e4docker button/configuration lifecycle and
process-liveness monitor.

Strings from the Rust code are modelled as `List Char`.  The on-disk key/value
store written through `configparser::ini::Ini` is modelled as a function from
normalized (lowercased) section and key to an optional value, matching the
crate's default case-insensitive behaviour.  Machine integers (`i32`) are
modelled as `Int`; `str::parse::<i32>` enforces the `i32` bounds and a
value outside the bounds is a parse error, so a successfully parsed value is
the mathematical integer (debug builds abort rather than wrap on overflow,
hence no wrapped value is ever returned by a successful run).
-/

namespace E4Docker

abbrev Str := List Char

/-- ASCII lowercasing of a single character, as applied by the ini store. -/
def lowChar (c : Char) : Char :=
  if 65 ≤ c.toNat ∧ c.toNat ≤ 90 then Char.ofNat (c.toNat + 32) else c

/-- Lowercasing of a string (configparser normalizes sections and keys). -/
def lowStr (s : Str) : Str := s.map lowChar

/-- The decimal digit characters produced when formatting a number. -/
def digitChar (d : Nat) : Char :=
  match d with
  | 0 => '0' | 1 => '1' | 2 => '2' | 3 => '3' | 4 => '4'
  | 5 => '5' | 6 => '6' | 7 => '7' | 8 => '8' | _ => '9'

/-- Decimal digits of `n`, most significant first; fuel-driven so that it
reduces definitionally (the fuel `n` always suffices). -/
def natDigitsAux : Nat → Nat → Str
  | 0, n => [digitChar n]
  | fuel + 1, n =>
    if n < 10 then [digitChar n]
    else natDigitsAux fuel (n / 10) ++ [digitChar (n % 10)]

/-- Decimal representation of a natural number, as `format!` prints it. -/
def natDigits (n : Nat) : Str := natDigitsAux n n

/-- Decimal representation of an integer, as `i32::to_string` prints it. -/
def intRepr (n : Int) : Str :=
  if n < 0 then '-' :: natDigits (-n).toNat else natDigits n.toNat

/-- Numeric value of a digit string (used to invert `natDigits`). -/
def digitsToNat (s : Str) : Nat :=
  s.foldl (fun acc c => acc * 10 + (c.toNat - 48)) 0

/-- Value of one ASCII digit, `none` on any other character. -/
def digitVal (c : Char) : Option Nat :=
  if 48 ≤ c.toNat ∧ c.toNat ≤ 57 then some (c.toNat - 48) else none

/-- Accumulating parse of a digit string; fails on a non-digit. -/
def parseNatLoop : Str → Nat → Option Nat
  | [], acc => some acc
  | c :: cs, acc =>
    match digitVal c with
    | some d => parseNatLoop cs (acc * 10 + d)
    | none => none

/-- Parse a nonempty all-digit string. -/
def parseNatAll : Str → Option Nat
  | [] => none
  | cs => parseNatLoop cs 0

/-- Smallest `i32` value. -/
def i32Min : Int := -(2 ^ 31)

/-- Largest `i32` value. -/
def i32Max : Int := 2 ^ 31 - 1

/-- Shared body of `str::parse::<i32>` after the optional sign. -/
def parseI32Core (cs : Str) (neg : Bool) : Option Int :=
  match parseNatAll cs with
  | none => none
  | some n =>
    let v : Int := if neg then -(n : Int) else (n : Int)
    if i32Min ≤ v ∧ v ≤ i32Max then some v else none

/-- Model of `str::parse::<i32>`: optional sign, one or more ASCII digits,
value within the `i32` bounds. -/
def parseI32 : Str → Option Int
  | '-' :: cs => parseI32Core cs true
  | '+' :: cs => parseI32Core cs false
  | cs => parseI32Core cs false

/-- The on-disk key/value store behind `configparser::ini::Ini`: a map from
normalized section and key to an optional value.  `set_value`, `get_value` and
`remove_key` each reload the whole file, mutate it and rewrite it, so the
file's state is the sequential composition of these updates. -/
def IniFile := Str → Str → Option Str

/-- Model of `Ini::get`: sections and keys are matched case-insensitively. -/
def iniGet (f : IniFile) (sec key : Str) : Option Str :=
  f (lowStr sec) (lowStr key)

/-- Model of `Ini::set` followed by a rewrite of the file. -/
def iniSet (f : IniFile) (sec key v : Str) : IniFile :=
  fun s k => if s = lowStr sec ∧ k = lowStr key then some v else f s k

/-- Model of `Ini::remove_key` followed by a rewrite of the file. -/
def iniRemoveKey (f : IniFile) (sec key : Str) : IniFile :=
  fun s k => if s = lowStr sec ∧ k = lowStr key then none else f s k

/-- The empty store. -/
def iniEmpty : IniFile := fun _ _ => none

/-- Section `E4DOCKER` of `e4docker.conf`. -/
def sectDocker : Str := "E4DOCKER".data

/-- Section `BUTTONS` of `e4docker.conf`. -/
def sectButtons : Str := "BUTTONS".data

/-- Section `BUTTON` of a per-button file. -/
def sectButton : Str := "BUTTON".data

/-- Key `NUMBER_OF_BUTTONS`. -/
def keyNumberOfButtons : Str := "NUMBER_OF_BUTTONS".data

/-- Key `MARGIN_BETWEEN_BUTTONS`. -/
def keyMarginBetweenButtons : Str := "MARGIN_BETWEEN_BUTTONS".data

/-- Key `FRAME_MARGIN`. -/
def keyFrameMargin : Str := "FRAME_MARGIN".data

/-- Key `ICON_WIDTH`. -/
def keyIconWidth : Str := "ICON_WIDTH".data

/-- Key `ICON_HEIGHT`. -/
def keyIconHeight : Str := "ICON_HEIGHT".data

/-- Key `X`. -/
def keyX : Str := "X".data

/-- Key `Y`. -/
def keyY : Str := "Y".data

/-- The reserved sentinel button name. -/
def genericName : Str := "generic".data

/-- The ordinal key `button{n}` used in the `BUTTONS` section. -/
def buttonKey (n : Nat) : Str := "button".data ++ natDigits n

/-- The in-memory configuration produced by `E4Config::read` (paths and the
assets directory, which are environment plumbing, are omitted). -/
structure E4Config where
  buttons : List Str
  margin_between_buttons : Int
  frame_margin : Int
  window_width : Int
  window_height : Int
  icon_width : Int
  icon_height : Int
  x : Int
  y : Int
deriving DecidableEq, Repr

/-- One numeric field of `E4Config::read`: a missing key leaves the default 0,
a present but unparseable value aborts the read with an error. -/
def readIntField (f : IniFile) (key : Str) : Except Unit Int :=
  match iniGet f sectDocker key with
  | none => Except.ok 0
  | some v =>
    match parseI32 v with
    | some n => Except.ok n
    | none => Except.error ()

/-- The loop `for n in 1..=number_of_buttons` of `E4Config::read`: ordinal
keys `button1..buttonN` in order, a missing key giving the empty name. -/
def readButtonNames (f : IniFile) (count : Nat) : List Str :=
  (List.range count).map (fun i => (iniGet f sectButtons (buttonKey (i + 1))).getD [])

/-- Model of `E4Config::read` on an already-loaded file: parse the window
position, the button count, the margins and the icon size (in source order,
each `?`-propagating a parse failure), read the ordinal button names, and
derive the window dimensions. -/
def E4Config.read (f : IniFile) : Except Unit E4Config :=
  match readIntField f keyX with
  | Except.error e => Except.error e
  | Except.ok x =>
  match readIntField f keyY with
  | Except.error e => Except.error e
  | Except.ok y =>
  match readIntField f keyNumberOfButtons with
  | Except.error e => Except.error e
  | Except.ok nob =>
  match readIntField f keyMarginBetweenButtons with
  | Except.error e => Except.error e
  | Except.ok mbb =>
  match readIntField f keyFrameMargin with
  | Except.error e => Except.error e
  | Except.ok fm =>
  let buttons := readButtonNames f nob.toNat
  match readIntField f keyIconWidth with
  | Except.error e => Except.error e
  | Except.ok iw =>
  match readIntField f keyIconHeight with
  | Except.error e => Except.error e
  | Except.ok ih =>
  Except.ok
    { buttons := buttons
      margin_between_buttons := mbb
      frame_margin := fm
      window_width := nob * iw + nob * mbb + fm * 2
      window_height := ih + fm * 4
      icon_width := iw
      icon_height := ih
      x := x
      y := y }

/-- The loop of `E4Config::save_buttons`, starting at enumeration index `i`:
each name is written to the ordinal key `button{i+1}` via `set_value`. -/
def saveButtonsGo (f : IniFile) : List Str → Nat → IniFile
  | [], _ => f
  | n :: rest, i => saveButtonsGo (iniSet f sectButtons (buttonKey (i + 1)) n) rest (i + 1)

/-- Model of `E4Config::save_buttons`. -/
def saveButtons (f : IniFile) (names : List Str) : IniFile :=
  saveButtonsGo f names 0

/-- Model of `E4Config::set_number_of_buttons`. -/
def setNumberOfButtons (f : IniFile) (n : Int) : IniFile :=
  iniSet f sectDocker keyNumberOfButtons (intRepr n)

/-- The per-index `remove_key` calls of `E4Button::delete`: removes the
ordinal keys `button1..buttonN` (in that order). -/
def removeOrdinalKeys (f : IniFile) : Nat → IniFile
  | 0 => f
  | n + 1 => iniRemoveKey (removeOrdinalKeys f n) sectButtons (buttonKey (n + 1))

/-- The command held by a button: an executable path and a single opaque
arguments string (possibly empty). -/
structure E4Command where
  cmd : Str
  arguments : Str
deriving DecidableEq, Repr

/-- The OS's willingness to spawn a given program: `spawnOk p = false` models
a refusal (missing executable, permission denied, ...). -/
structure OsSpawn where
  spawnOk : Str → Bool

/-- A `Command::new(program).args(args).spawn()` call: the program and the
argument tokens handed to the child. -/
structure SpawnCall where
  program : Str
  args : List Str
deriving DecidableEq, Repr

/-- What the spawned worker thread ends up doing. -/
inductive ThreadOutcome where
  /-- The spawn succeeded and the thread waits for the child. -/
  | waitedChild : ThreadOutcome
  /-- The spawn failed and the thread shows an alert built from the given
  translation key and the program path. -/
  | alerted (key : Str) (program : Str) : ThreadOutcome
deriving DecidableEq, Repr

/-- The observable effect of `E4Command::exec`: the spawn call performed on a
separate thread, that thread's outcome, whether the calling thread waits for
the child, and the value returned to the caller. -/
structure ExecEffect where
  threadCall : SpawnCall
  threadOutcome : ThreadOutcome
  callerWaits : Bool
  result : Except Str Unit

/-- Model of `E4Command::exec`.  The code tests `!self.arguments.is_empty()`:
in that branch it spawns `Command::new(&cmd)` with no `.args(..)` call, while
in the empty-arguments branch it spawns with `.args([&args])`, i.e. one
(empty) argument token.  Both branches spawn on a new thread, wait for the
child there, alert there on a spawn error, and the function itself returns
`Ok(())` unconditionally. -/
def E4Command.exec (c : E4Command) (os : OsSpawn) : ExecEffect :=
  let call : SpawnCall :=
    if !c.arguments.isEmpty then { program := c.cmd, args := [] }
    else { program := c.cmd, args := [c.arguments] }
  { threadCall := call
    threadOutcome :=
      if os.spawnOk call.program then ThreadOutcome.waitedChild
      else ThreadOutcome.alerted "failed-to-execute-command".data c.cmd
    callerWaits := false
    result := Except.ok () }

/-- A user-visible event emitted by a configuration operation. -/
inductive UiEvent where
  /-- A modal alert, identified by its translation key. -/
  | alert (key : Str) : UiEvent
  /-- A full application restart. -/
  | restart : UiEvent
deriving DecidableEq, Repr

/-- The state touched by the button lifecycle operations: the app-level file
`e4docker.conf`, the per-button files (keyed by button name), the staging
temporary file, and the in-memory `config.buttons` list. -/
structure AppState where
  appFile : IniFile
  buttonFiles : Str → Option IniFile
  tmpFile : IniFile
  buttons : List Str

/-- Model of `E4Button::delete` for the button named `selfName`.  A delete of
the sentinel is refused with an alert and no state change.  Otherwise the
button's own file is removed (a missing file only alerts), every ordinal key
`button1..buttonN` is removed, `NUMBER_OF_BUTTONS` is set to the size of the
filtered list, the filtered list is rewritten with `save_buttons`, and the
application restarts. -/
def deleteButton (selfName : Str) (st : AppState) : AppState × List UiEvent :=
  if selfName = genericName then
    (st, [UiEvent.alert "cannot-delete-the-generic-button".data])
  else
    let files : Str → Option IniFile :=
      match st.buttonFiles selfName with
      | some _ => fun n => if n = selfName then none else st.buttonFiles n
      | none => st.buttonFiles
    let removeEvents : List UiEvent :=
      match st.buttonFiles selfName with
      | some _ => []
      | none => [UiEvent.alert "cannot-remove-the-config-file".data]
    let newButtons := st.buttons.filter (fun b => b != selfName)
    let f1 := removeOrdinalKeys st.appFile st.buttons.length
    let f2 := setNumberOfButtons f1 (newButtons.length : Int)
    let f3 := saveButtons f2 newButtons
    ({ st with appFile := f3, buttonFiles := files },
     removeEvents ++ [UiEvent.restart])

/-- The `let mut n = 0; for (i, button) in buttons { if button == old_name
{ n = i + 1 } }` scan of the edit save callback: the last matching ordinal,
0 when the name is absent. -/
def findOrdinalGo : List Str → Str → Nat → Nat → Nat
  | [], _, _, acc => acc
  | b :: rest, target, i, acc =>
    findOrdinalGo rest target (i + 1) (if b = target then i + 1 else acc)

/-- Ordinal (1-based) of the last occurrence of `target`, 0 if absent. -/
def findOrdinal (names : List Str) (target : Str) : Nat :=
  findOrdinalGo names target 0 0

/-- Model of the save callback of `E4Button::edit`.  A rename to the sentinel
name is refused with an alert before anything is written.  Otherwise the new
command and arguments are staged in the temporary file, the ordinal key of
the old name is pointed at the new name, the staged file is copied over the
(new) button's own file, and the application restarts. -/
def editSave (oldName newName cmdVal argVal : Str) (st : AppState) :
    AppState × List UiEvent :=
  if newName = genericName then
    (st, [UiEvent.alert "cannot-modify-the-generic-button".data])
  else
    let tmp1 := iniSet st.tmpFile sectButton "command".data cmdVal
    let tmp2 := iniSet tmp1 sectButton "arguments".data argVal
    let n := findOrdinal st.buttons oldName
    let f1 := iniSet st.appFile sectButtons (buttonKey n) newName
    let files := fun m => if m = newName then some tmp2 else st.buttonFiles m
    ({ st with appFile := f1, tmpFile := tmp2, buttonFiles := files },
     [UiEvent.restart])

/-- Model of the save callback of `E4Button::new_button`.  The entered name is
not validated in any way: the staged file is copied to `name.conf`, the
stored `NUMBER_OF_BUTTONS` is parsed and incremented (a failure to parse it
panics, modelled as `none`), and `save_buttons` persists the old in-memory
list with the entered name appended. -/
def newButtonSave (name cmdVal argVal : Str) (st : AppState) :
    Option (AppState × List UiEvent) :=
  let tmp1 := iniSet st.tmpFile sectButton "command".data cmdVal
  let tmp2 := iniSet tmp1 sectButton "arguments".data argVal
  let files := fun m => if m = name then some tmp2 else st.buttonFiles m
  match iniGet st.appFile sectDocker keyNumberOfButtons with
  | none => none
  | some v =>
    match parseI32 v with
    | none => none
    | some nob =>
      let f1 := setNumberOfButtons st.appFile (nob + 1)
      let newButtons := st.buttons ++ [name]
      let f2 := saveButtons f1 newButtons
      some ({ st with appFile := f2, tmpFile := tmp2, buttonFiles := files },
            [UiEvent.restart])

/-- Does `small` occur at the start of `big`? (`str` pattern matching). -/
def isPrefixB : Str → Str → Bool
  | [], _ => true
  | _ :: _, [] => false
  | a :: as_, b :: bs => a == b && isPrefixB as_ bs

/-- Model of `str::contains` for a string pattern: substring search. -/
def containsSub : Str → Str → Bool
  | hay, needle =>
    isPrefixB needle hay ||
      match hay with
      | [] => false
      | _ :: t => containsSub t needle

/-- Model of `Path::file_name` for Unix paths: the last nonempty, non-`.`
component, unless it is `..` (or there is none). -/
def fileNameOf (path : Str) : Option Str :=
  let comps := (path.splitOn '/').filter (fun c => !(c == []) && !(c == ['.']))
  match comps.getLast? with
  | some last => if last = "..".data then none else some last
  | none => none

/-- One OS process as reported by `sysinfo`: an image name and command-line
tokens, each `none` when the OS string is not valid UTF-8 (so that
`to_str()` returns `None` and `unwrap()` panics). -/
structure ProcInfo where
  name : Option Str
  cmd : List (Option Str)
deriving DecidableEq, Repr

/-- A snapshot of the OS process table. -/
structure ProcSnapshot where
  procs : List ProcInfo
deriving DecidableEq, Repr

/-- `Iterator::any` over a fallible body: `none` models a panic inside the
closure, short-circuiting like the Rust iterator does. -/
def anyOpt (f : α → Option Bool) : List α → Option Bool
  | [] => some false
  | x :: xs =>
    match f x with
    | none => none
    | some true => some true
    | some false => anyOpt f xs

/-- The per-process test of `is_process_running`:
`process.name().to_str().unwrap().contains(target) || process.cmd().iter()
.any(|cmd| cmd.to_str().unwrap().contains(target))`, with `none` modelling
the `unwrap` panic on a non-UTF-8 OS string. -/
def procMatches (target : Str) (p : ProcInfo) : Option Bool :=
  match p.name with
  | none => none
  | some n =>
    if containsSub n target then some true
    else
      anyOpt
        (fun tok =>
          match tok with
          | none => none
          | some t => some (containsSub t target))
        p.cmd

/-- Model of `is_process_running`: extract the base file name of the
configured path (falling back to the whole path), then scan the process
table; `none` models a panic during the scan. -/
def isProcessRunning (sys : ProcSnapshot) (processPath : Str) : Option Bool :=
  let target := (fileNameOf processPath).getD processPath
  anyOpt (procMatches target) sys.procs

/-- A snapshot is well formed when every process name and every command-line
token is valid UTF-8. -/
def ProcSnapshot.wellFormed (sys : ProcSnapshot) : Prop :=
  ∀ p ∈ sys.procs, p.name ≠ none ∧ ∀ t ∈ p.cmd, t ≠ none

/-- The matching condition stated by the specification: some live process's
image name, or some token of some live process's command line, contains the
configured base name as a substring. -/
def runningSpec (sys : ProcSnapshot) (base : Str) : Prop :=
  ∃ p ∈ sys.procs,
    (∃ n, p.name = some n ∧ containsSub n base = true) ∨
      (∃ tok ∈ p.cmd, ∃ t, tok = some t ∧ containsSub t base = true)

instance (sys : ProcSnapshot) : Decidable sys.wellFormed := by
  unfold ProcSnapshot.wellFormed; infer_instance

instance [DecidableEq ε] [DecidableEq α] : DecidableEq (Except ε α) := fun a b =>
  match a, b with
  | Except.error x, Except.error y =>
    if h : x = y then isTrue (by rw [h])
    else isFalse (fun hh => h (Except.error.inj hh))
  | Except.error _, Except.ok _ => isFalse (fun h => Except.noConfusion h)
  | Except.ok _, Except.error _ => isFalse (fun h => Except.noConfusion h)
  | Except.ok x, Except.ok y =>
    if h : x = y then isTrue (by rw [h])
    else isFalse (fun hh => h (Except.ok.inj hh))

theorem digitChar_toNat (d : Nat) (h : d < 10) :
    (digitChar d).toNat = 48 + d := by
  interval_cases d <;> decide

theorem lowChar_digitChar (d : Nat) (h : d < 10) :
    lowChar (digitChar d) = digitChar d := by
  interval_cases d <;> decide

theorem natDigitsAux_mem (fuel n : Nat) (h : n ≤ fuel) :
    ∀ c ∈ natDigitsAux fuel n, ∃ d, d < 10 ∧ c = digitChar d := by
  induction fuel generalizing n with
  | zero =>
    have hn : n = 0 := Nat.le_zero.mp h
    subst hn
    intro c hc
    simp only [natDigitsAux, List.mem_singleton] at hc
    exact ⟨0, by omega, hc⟩
  | succ fuel ih =>
    intro c hc
    by_cases h10 : n < 10
    · simp only [natDigitsAux, if_pos h10, List.mem_singleton] at hc
      exact ⟨n, h10, hc⟩
    · simp only [natDigitsAux, if_neg h10, List.mem_append,
        List.mem_singleton] at hc
      rcases hc with hc | hc
      · exact ih (n / 10) (by omega) c hc
      · exact ⟨n % 10, Nat.mod_lt _ (by omega), hc⟩

theorem digitsToNat_natDigitsAux (fuel n : Nat) (h : n ≤ fuel) :
    digitsToNat (natDigitsAux fuel n) = n := by
  induction fuel generalizing n with
  | zero =>
    have hn : n = 0 := Nat.le_zero.mp h
    subst hn
    decide
  | succ fuel ih =>
    by_cases h10 : n < 10
    · simp only [natDigitsAux, if_pos h10]
      show List.foldl _ 0 [digitChar n] = n
      simp [digitsToNat, digitChar_toNat n h10]
    · simp only [natDigitsAux, if_neg h10]
      unfold digitsToNat
      rw [List.foldl_append]
      have hrec := ih (n / 10) (by omega)
      unfold digitsToNat at hrec
      rw [hrec]
      simp only [List.foldl_cons, List.foldl_nil,
        digitChar_toNat (n % 10) (Nat.mod_lt _ (by omega))]
      omega

theorem digitsToNat_natDigits (n : Nat) : digitsToNat (natDigits n) = n :=
  digitsToNat_natDigitsAux n n (Nat.le_refl n)

theorem natDigits_inj {a b : Nat} (h : natDigits a = natDigits b) : a = b := by
  have := congrArg digitsToNat h
  rwa [digitsToNat_natDigits, digitsToNat_natDigits] at this

theorem lowStr_fix (s : Str) (h : ∀ c ∈ s, lowChar c = c) : lowStr s = s := by
  induction s with
  | nil => rfl
  | cons c t ih =>
    simp only [List.mem_cons, forall_eq_or_imp] at h
    simp only [lowStr, List.map_cons, h.1, List.cons.injEq, true_and]
    exact ih h.2

theorem lowStr_natDigits (n : Nat) : lowStr (natDigits n) = natDigits n := by
  apply lowStr_fix
  intro c hc
  obtain ⟨d, hd, rfl⟩ := natDigitsAux_mem n n (Nat.le_refl n) c hc
  exact lowChar_digitChar d hd

theorem lowStr_append (a b : Str) : lowStr (a ++ b) = lowStr a ++ lowStr b :=
  List.map_append _ a b

theorem lowStr_buttonKey (n : Nat) : lowStr (buttonKey n) = buttonKey n := by
  unfold buttonKey
  rw [lowStr_append, lowStr_natDigits]
  have : lowStr "button".data = "button".data := by decide
  rw [this]

theorem buttonKey_inj {a b : Nat} (h : buttonKey a = buttonKey b) : a = b := by
  unfold buttonKey at h
  exact natDigits_inj (List.append_cancel_left h)

theorem lowStr_buttonKey_inj {a b : Nat}
    (h : lowStr (buttonKey a) = lowStr (buttonKey b)) : a = b := by
  rw [lowStr_buttonKey, lowStr_buttonKey] at h
  exact buttonKey_inj h

theorem iniGet_iniSet_same (f : IniFile) (sec key v : Str) :
    iniGet (iniSet f sec key v) sec key = some v := by
  simp [iniGet, iniSet]

theorem iniGet_iniSet_other (f : IniFile) (sec key sec' key' v : Str)
    (h : lowStr sec ≠ lowStr sec' ∨ lowStr key ≠ lowStr key') :
    iniGet (iniSet f sec' key' v) sec key = iniGet f sec key := by
  unfold iniGet iniSet
  rw [if_neg]
  rintro ⟨h1, h2⟩
  rcases h with h | h
  · exact h h1
  · exact h h2

theorem iniGet_iniRemoveKey_same (f : IniFile) (sec key : Str) :
    iniGet (iniRemoveKey f sec key) sec key = none := by
  simp [iniGet, iniRemoveKey]

theorem iniGet_iniRemoveKey_other (f : IniFile) (sec key sec' key' : Str)
    (h : lowStr sec ≠ lowStr sec' ∨ lowStr key ≠ lowStr key') :
    iniGet (iniRemoveKey f sec' key') sec key = iniGet f sec key := by
  unfold iniGet iniRemoveKey
  rw [if_neg]
  rintro ⟨h1, h2⟩
  rcases h with h | h
  · exact h h1
  · exact h h2

theorem sectDocker_ne_sectButtons : lowStr sectDocker ≠ lowStr sectButtons := by
  decide

theorem saveButtonsGo_get_other (names : List Str) (f : IniFile) (i : Nat)
    (sec key : Str) (h : lowStr sec ≠ lowStr sectButtons) :
    iniGet (saveButtonsGo f names i) sec key = iniGet f sec key := by
  induction names generalizing f i with
  | nil => rfl
  | cons x rest ih =>
    show iniGet (saveButtonsGo (iniSet f sectButtons (buttonKey (i + 1)) x)
      rest (i + 1)) sec key = _
    rw [ih _ (i + 1), iniGet_iniSet_other _ _ _ _ _ _ (Or.inl h)]

theorem saveButtonsGo_get_le (names : List Str) (f : IniFile) (i k : Nat)
    (hk : k ≤ i) :
    iniGet (saveButtonsGo f names i) sectButtons (buttonKey k) =
      iniGet f sectButtons (buttonKey k) := by
  induction names generalizing f i with
  | nil => rfl
  | cons x rest ih =>
    show iniGet (saveButtonsGo (iniSet f sectButtons (buttonKey (i + 1)) x)
      rest (i + 1)) sectButtons (buttonKey k) = _
    rw [ih _ (i + 1) (Nat.le_succ_of_le hk),
      iniGet_iniSet_other _ _ _ _ _ _
        (Or.inr (fun hh => by have := lowStr_buttonKey_inj hh; omega))]

theorem saveButtonsGo_get_gt (names : List Str) (f : IniFile) (i k : Nat)
    (hk : i + names.length < k) :
    iniGet (saveButtonsGo f names i) sectButtons (buttonKey k) =
      iniGet f sectButtons (buttonKey k) := by
  induction names generalizing f i with
  | nil => rfl
  | cons x rest ih =>
    simp only [List.length_cons] at hk
    show iniGet (saveButtonsGo (iniSet f sectButtons (buttonKey (i + 1)) x)
      rest (i + 1)) sectButtons (buttonKey k) = _
    rw [ih _ (i + 1) (by omega),
      iniGet_iniSet_other _ _ _ _ _ _
        (Or.inr (fun hh => by have := lowStr_buttonKey_inj hh; omega))]

theorem saveButtonsGo_get (names : List Str) (f : IniFile) (i j : Nat)
    (hj : j < names.length) :
    iniGet (saveButtonsGo f names i) sectButtons (buttonKey (i + j + 1)) =
      some (names.get ⟨j, hj⟩) := by
  induction names generalizing f i j with
  | nil => exact absurd hj (by simp)
  | cons x rest ih =>
    cases j with
    | zero =>
      show iniGet (saveButtonsGo (iniSet f sectButtons (buttonKey (i + 1)) x)
        rest (i + 1)) sectButtons (buttonKey (i + 0 + 1)) = some x
      rw [saveButtonsGo_get_le rest _ (i + 1) (i + 0 + 1) (by omega)]
      exact iniGet_iniSet_same _ _ _ _
    | succ j' =>
      have harith : i + (j' + 1) + 1 = (i + 1) + j' + 1 := by omega
      rw [harith]
      show iniGet (saveButtonsGo (iniSet f sectButtons (buttonKey (i + 1)) x)
        rest (i + 1)) sectButtons (buttonKey ((i + 1) + j' + 1)) = _
      rw [ih _ (i + 1) j' (by simpa using hj)]
      rfl

theorem saveButtons_get (names : List Str) (f : IniFile) (j : Nat)
    (hj : j < names.length) :
    iniGet (saveButtons f names) sectButtons (buttonKey (j + 1)) =
      some (names.get ⟨j, hj⟩) := by
  have := saveButtonsGo_get names f 0 j hj
  simpa using this

theorem removeOrdinalKeys_get_none (f : IniFile) (n k : Nat)
    (h1 : 1 ≤ k) (hk : k ≤ n) :
    iniGet (removeOrdinalKeys f n) sectButtons (buttonKey k) = none := by
  induction n with
  | zero => omega
  | succ n ih =>
    show iniGet (iniRemoveKey (removeOrdinalKeys f n) sectButtons
      (buttonKey (n + 1))) sectButtons (buttonKey k) = none
    by_cases hkn : k = n + 1
    · subst hkn
      exact iniGet_iniRemoveKey_same _ _ _
    · rw [iniGet_iniRemoveKey_other _ _ _ _ _
        (Or.inr (fun hh => hkn (lowStr_buttonKey_inj hh)))]
      exact ih (by omega)

theorem removeOrdinalKeys_get_other (f : IniFile) (n : Nat) (sec key : Str)
    (h : lowStr sec ≠ lowStr sectButtons) :
    iniGet (removeOrdinalKeys f n) sec key = iniGet f sec key := by
  induction n with
  | zero => rfl
  | succ n ih =>
    show iniGet (iniRemoveKey (removeOrdinalKeys f n) sectButtons
      (buttonKey (n + 1))) sec key = _
    rw [iniGet_iniRemoveKey_other _ _ _ _ _ (Or.inl h), ih]

theorem readIntField_congr (f g : IniFile) (key : Str)
    (h : iniGet g sectDocker key = iniGet f sectDocker key) :
    readIntField g key = readIntField f key := by
  unfold readIntField
  rw [h]

theorem readIntField_saveButtons (f : IniFile) (names : List Str) (key : Str) :
    readIntField (saveButtons f names) key = readIntField f key :=
  readIntField_congr _ _ _
    (saveButtonsGo_get_other names f 0 _ _ sectDocker_ne_sectButtons)

/-- Characterization of a successful `E4Config::read` in terms of the parsed
fields of the file. -/
theorem read_ok_iff (f : IniFile) (c : E4Config) :
    E4Config.read f = Except.ok c ↔
      ∃ x y nob mbb fm iw ih,
        readIntField f keyX = Except.ok x ∧
        readIntField f keyY = Except.ok y ∧
        readIntField f keyNumberOfButtons = Except.ok nob ∧
        readIntField f keyMarginBetweenButtons = Except.ok mbb ∧
        readIntField f keyFrameMargin = Except.ok fm ∧
        readIntField f keyIconWidth = Except.ok iw ∧
        readIntField f keyIconHeight = Except.ok ih ∧
        c = { buttons := readButtonNames f nob.toNat
              margin_between_buttons := mbb
              frame_margin := fm
              window_width := nob * iw + nob * mbb + fm * 2
              window_height := ih + fm * 4
              icon_width := iw
              icon_height := ih
              x := x
              y := y } := by
  unfold E4Config.read
  cases hx : readIntField f keyX with
  | error e => simp [hx]
  | ok x =>
  cases hy : readIntField f keyY with
  | error e => simp [hy]
  | ok y =>
  cases hn : readIntField f keyNumberOfButtons with
  | error e => simp [hn]
  | ok nob =>
  cases hm : readIntField f keyMarginBetweenButtons with
  | error e => simp [hm]
  | ok mbb =>
  cases hf : readIntField f keyFrameMargin with
  | error e => simp [hf]
  | ok fm =>
  cases hw : readIntField f keyIconWidth with
  | error e => simp [hw]
  | ok iw =>
  cases hh : readIntField f keyIconHeight with
  | error e => simp [hh]
  | ok ih =>
  simp only [Except.ok.injEq]
  constructor
  · intro hc
    exact ⟨x, y, nob, mbb, fm, iw, ih, rfl, rfl, rfl, rfl, rfl, rfl, rfl,
      hc.symm⟩
  · rintro ⟨x', y', nob', mbb', fm', iw', ih', hx', hy', hn', hm', hf', hw',
      hh', hc⟩
    subst hx'
    subst hy'
    subst hn'
    subst hm'
    subst hf'
    subst hw'
    subst hh'
    exact hc.symm

theorem anyOpt_char (l : List α) (f : α → Option Bool) (P : α → Prop)
    (h : ∀ x ∈ l, ∃ b, f x = some b ∧ (b = true ↔ P x)) :
    ∃ b, anyOpt f l = some b ∧ (b = true ↔ ∃ x ∈ l, P x) := by
  induction l with
  | nil => exact ⟨false, rfl, by simp⟩
  | cons x xs ih =>
    obtain ⟨b, hfx, hbP⟩ := h x (List.mem_cons_self x xs)
    cases b with
    | true =>
      refine ⟨true, ?_, ?_⟩
      · simp [anyOpt, hfx]
      · simp only [true_iff]
        exact ⟨x, List.mem_cons_self x xs, hbP.mp rfl⟩
    | false =>
      obtain ⟨b', hb', hP'⟩ := ih (fun y hy => h y (List.mem_cons_of_mem x hy))
      refine ⟨b', ?_, ?_⟩
      · simp [anyOpt, hfx, hb']
      · rw [hP']
        constructor
        · rintro ⟨y, hy, hPy⟩
          exact ⟨y, List.mem_cons_of_mem x hy, hPy⟩
        · rintro ⟨y, hy, hPy⟩
          rcases List.mem_cons.mp hy with rfl | hy'
          · exact absurd hPy (by simpa using hbP)
          · exact ⟨y, hy', hPy⟩

theorem procMatches_char (target : Str) (p : ProcInfo)
    (hname : p.name ≠ none) (hcmd : ∀ t ∈ p.cmd, t ≠ none) :
    ∃ b, procMatches target p = some b ∧
      (b = true ↔
        (∃ n, p.name = some n ∧ containsSub n target = true) ∨
          (∃ tok ∈ p.cmd, ∃ t, tok = some t ∧ containsSub t target = true)) := by
  cases hn : p.name with
  | none => exact absurd hn hname
  | some n =>
    by_cases hc : containsSub n target = true
    · refine ⟨true, ?_, ?_⟩
      · simp [procMatches, hn, hc]
      · simp only [true_iff]
        exact Or.inl ⟨n, rfl, hc⟩
    · obtain ⟨b, hb, hP⟩ := anyOpt_char p.cmd
        (fun tok =>
          match tok with
          | none => none
          | some t => some (containsSub t target))
        (fun tok => ∃ t, tok = some t ∧ containsSub t target = true)
        (by
          intro tok htok
          cases tok with
          | none => exact absurd rfl (hcmd none htok)
          | some t =>
            refine ⟨containsSub t target, rfl, ?_⟩
            constructor
            · intro ht
              exact ⟨t, rfl, ht⟩
            · rintro ⟨t', ht', hct⟩
              cases Option.some.inj ht'
              exact hct)
      refine ⟨b, ?_, ?_⟩
      · simp only [procMatches, hn, if_neg hc]
        exact hb
      · rw [hP]
        constructor
        · intro htok
          exact Or.inr htok
        · rintro (⟨n', hn', hcn⟩ | htok)
          · cases Option.some.inj hn'
            exact absurd hcn hc
          · exact htok

theorem isProcessRunning_char (sys : ProcSnapshot) (path base : Str)
    (hwf : sys.wellFormed) (hb : fileNameOf path = some base) :
    ∃ b, isProcessRunning sys path = some b ∧
      (b = true ↔ runningSpec sys base) := by
  obtain ⟨b, hb', hP⟩ := anyOpt_char sys.procs (procMatches base)
    (fun p =>
      (∃ n, p.name = some n ∧ containsSub n base = true) ∨
        (∃ tok ∈ p.cmd, ∃ t, tok = some t ∧ containsSub t base = true))
    (fun p hp => procMatches_char base p (hwf p hp).1 (hwf p hp).2)
  refine ⟨b, ?_, hP⟩
  unfold isProcessRunning
  rw [hb]
  exact hb'

theorem readButtonNames_saveButtons (f : IniFile) (names : List Str) :
    readButtonNames (saveButtons f names) names.length = names := by
  apply List.ext_get
  · simp [readButtonNames]
  · intro i h1 h2
    simp only [readButtonNames, List.get_map, List.get_range]
    rw [saveButtons_get names f i h2]
    rfl

/-- C1: the claim states that a non-empty arguments string is passed to the
child as a single token and an empty one yields no arguments.  The code has
the branches swapped: evaluated on the doc-comment's own example
(`/usr/bin/nano` with argument `/tmp/myfile.txt`) the spawned call carries no
argument tokens, and with an empty arguments string it carries one
empty-string token.  In both cases the spawn does run on a separate thread
without the caller waiting; the argument-passing part of the claim is what
fails. -/
theorem claim1_exec_swaps_argument_branches :
    (E4Command.exec ⟨"/usr/bin/nano".data, "/tmp/myfile.txt".data⟩
        ⟨fun _ => true⟩).threadCall =
      { program := "/usr/bin/nano".data, args := [] } ∧
    (E4Command.exec ⟨"/usr/bin/nano".data, []⟩ ⟨fun _ => true⟩).threadCall =
      { program := "/usr/bin/nano".data, args := [[]] } ∧
    (E4Command.exec ⟨"/usr/bin/nano".data, "/tmp/myfile.txt".data⟩
        ⟨fun _ => true⟩).callerWaits = false := by
  refine ⟨?_, ?_, rfl⟩ <;> decide

/-- C2 counterexample: with an OS that refuses every spawn (modelling a
nonexistent executable path), `exec` still returns `Ok(())`; it never
returns an `Err`, contradicting the claim that a refused spawn is reported
through the return value. -/
theorem claim2_counterexample :
    (OsSpawn.mk (fun _ => false)).spawnOk "/nonexistent/prog".data = false ∧
    (E4Command.exec ⟨"/nonexistent/prog".data, []⟩
        ⟨fun _ => false⟩).result = Except.ok () :=
  ⟨rfl, rfl⟩

/-- C2 (amended): `exec` always returns `Ok(())` to its caller and never
waits for the child on the calling thread; when the OS refuses to spawn the
stored executable, the failure is caught on the spawned worker thread and
surfaced there as a `failed-to-execute-command` notification rather than a
crash or an error return. -/
theorem claim2_spawn_failure_alerts (c : E4Command) (os : OsSpawn)
    (h : os.spawnOk c.cmd = false) :
    (c.exec os).result = Except.ok () ∧
    (c.exec os).callerWaits = false ∧
    (c.exec os).threadOutcome =
      ThreadOutcome.alerted "failed-to-execute-command".data c.cmd := by
  obtain ⟨cmd, args⟩ := c
  cases args <;> simp [E4Command.exec, h]

theorem claim2_witness :
    (E4Command.exec ⟨"/nonexistent/prog".data, []⟩
        ⟨fun _ => false⟩).result = Except.ok () ∧
    (E4Command.exec ⟨"/nonexistent/prog".data, []⟩
        ⟨fun _ => false⟩).callerWaits = false ∧
    (E4Command.exec ⟨"/nonexistent/prog".data, []⟩
        ⟨fun _ => false⟩).threadOutcome =
      ThreadOutcome.alerted "failed-to-execute-command".data
        "/nonexistent/prog".data :=
  claim2_spawn_failure_alerts ⟨"/nonexistent/prog".data, []⟩
    ⟨fun _ => false⟩ rfl

/-- C3: deleting the button named `generic`, and confirming an edit whose
new name is `generic`, both leave the whole state (the in-memory button_names
list, the app-level file, every per-button file and even the staging file)
unchanged and emit exactly one rejection alert; the rejection happens before
any mutation. -/
theorem claim3_sentinel_protected (st : AppState) (oldName cmdVal argVal : Str) :
    deleteButton genericName st =
      (st, [UiEvent.alert "cannot-delete-the-generic-button".data]) ∧
    editSave oldName genericName cmdVal argVal st =
      (st, [UiEvent.alert "cannot-modify-the-generic-button".data]) := by
  constructor
  · unfold deleteButton
    rw [if_pos rfl]
  · unfold editSave
    rw [if_pos rfl]

/-- C4: deleting `b` from a persisted state holding the three distinct
buttons `[a, b, c]` at ordinals 1..3 with `NUMBER_OF_BUTTONS = 3` leaves the
persisted ordinals contiguous (`button1 = a`, `button2 = c`), removes the
leftover `button3` key, and stores `NUMBER_OF_BUTTONS = 2`. -/
theorem claim4_delete_renumbers (f : IniFile) (bf : Str → Option IniFile)
    (tmp : IniFile) (a b c : Str)
    (hab : a ≠ b) (hbc : b ≠ c) (hbg : b ≠ genericName)
    (h1 : iniGet f sectButtons (buttonKey 1) = some a)
    (h2 : iniGet f sectButtons (buttonKey 2) = some b)
    (h3 : iniGet f sectButtons (buttonKey 3) = some c)
    (hn : iniGet f sectDocker keyNumberOfButtons = some "3".data) :
    iniGet (deleteButton b ⟨f, bf, tmp, [a, b, c]⟩).1.appFile
        sectButtons (buttonKey 1) = some a ∧
    iniGet (deleteButton b ⟨f, bf, tmp, [a, b, c]⟩).1.appFile
        sectButtons (buttonKey 2) = some c ∧
    iniGet (deleteButton b ⟨f, bf, tmp, [a, b, c]⟩).1.appFile
        sectButtons (buttonKey 3) = none ∧
    iniGet (deleteButton b ⟨f, bf, tmp, [a, b, c]⟩).1.appFile
        sectDocker keyNumberOfButtons = some "2".data := by
  have hfa : (a != b) = true := bne_iff_ne.mpr hab
  have hfb : (b != b) = false := by simp
  have hfc : (c != b) = true := bne_iff_ne.mpr (Ne.symm hbc)
  have happ : (deleteButton b ⟨f, bf, tmp, [a, b, c]⟩).1.appFile =
      saveButtons
        (setNumberOfButtons (removeOrdinalKeys f 3) 2)
        [a, c] := by
    unfold deleteButton
    rw [if_neg hbg]
    simp only [List.filter, hfa, hfb, hfc, List.length_cons, List.length_nil]
    rfl
  rw [happ]
  refine ⟨?_, ?_, ?_, ?_⟩
  · have := saveButtons_get [a, c]
      (setNumberOfButtons (removeOrdinalKeys f 3) 2) 0 (by simp)
    simpa using this
  · have := saveButtons_get [a, c]
      (setNumberOfButtons (removeOrdinalKeys f 3) 2) 1 (by simp)
    simpa using this
  · show iniGet (saveButtonsGo (setNumberOfButtons (removeOrdinalKeys f 3) 2)
      [a, c] 0) sectButtons (buttonKey 3) = none
    rw [saveButtonsGo_get_gt [a, c] _ 0 3 (by simp)]
    rw [setNumberOfButtons]
    rw [iniGet_iniSet_other _ _ _ _ _ _
      (Or.inl (Ne.symm sectDocker_ne_sectButtons))]
    exact removeOrdinalKeys_get_none f 3 3 (by omega) (by omega)
  · show iniGet (saveButtonsGo (setNumberOfButtons (removeOrdinalKeys f 3) 2)
      [a, c] 0) sectDocker keyNumberOfButtons = some "2".data
    rw [saveButtonsGo_get_other [a, c] _ 0 _ _ sectDocker_ne_sectButtons]
    have := iniGet_iniSet_same (removeOrdinalKeys f 3) sectDocker
      keyNumberOfButtons (intRepr 2)
    rw [show intRepr 2 = "2".data from by decide] at this
    exact this

theorem claim4_witness :
    iniGet (deleteButton "beta".data
        ⟨iniSet (iniSet (iniSet (iniSet iniEmpty
            sectButtons (buttonKey 1) "alpha".data)
            sectButtons (buttonKey 2) "beta".data)
            sectButtons (buttonKey 3) "gamma".data)
            sectDocker keyNumberOfButtons "3".data,
          fun _ => some iniEmpty, iniEmpty,
          ["alpha".data, "beta".data, "gamma".data]⟩).1.appFile
        sectButtons (buttonKey 1) = some "alpha".data ∧
    iniGet (deleteButton "beta".data
        ⟨iniSet (iniSet (iniSet (iniSet iniEmpty
            sectButtons (buttonKey 1) "alpha".data)
            sectButtons (buttonKey 2) "beta".data)
            sectButtons (buttonKey 3) "gamma".data)
            sectDocker keyNumberOfButtons "3".data,
          fun _ => some iniEmpty, iniEmpty,
          ["alpha".data, "beta".data, "gamma".data]⟩).1.appFile
        sectButtons (buttonKey 2) = some "gamma".data ∧
    iniGet (deleteButton "beta".data
        ⟨iniSet (iniSet (iniSet (iniSet iniEmpty
            sectButtons (buttonKey 1) "alpha".data)
            sectButtons (buttonKey 2) "beta".data)
            sectButtons (buttonKey 3) "gamma".data)
            sectDocker keyNumberOfButtons "3".data,
          fun _ => some iniEmpty, iniEmpty,
          ["alpha".data, "beta".data, "gamma".data]⟩).1.appFile
        sectButtons (buttonKey 3) = none ∧
    iniGet (deleteButton "beta".data
        ⟨iniSet (iniSet (iniSet (iniSet iniEmpty
            sectButtons (buttonKey 1) "alpha".data)
            sectButtons (buttonKey 2) "beta".data)
            sectButtons (buttonKey 3) "gamma".data)
            sectDocker keyNumberOfButtons "3".data,
          fun _ => some iniEmpty, iniEmpty,
          ["alpha".data, "beta".data, "gamma".data]⟩).1.appFile
        sectDocker keyNumberOfButtons = some "2".data :=
  claim4_delete_renumbers _ _ _ _ _ _
    (by decide) (by decide) (by decide)
    (by decide) (by decide) (by decide) (by decide)

/-- The one-button starting state of the C5 counterexample: the persisted
list is `[generic]` with `NUMBER_OF_BUTTONS = 1`. -/
def oneGenericState : AppState :=
  { appFile := iniSet (iniSet iniEmpty sectDocker keyNumberOfButtons "1".data)
      sectButtons (buttonKey 1) genericName
    buttonFiles := fun _ => none
    tmpFile := iniEmpty
    buttons := [genericName] }

/-- C5 counterexample: confirming the new-button dialog with the entered
name `generic` on a registry that already holds `generic` persists the list
`[generic, generic]` — a second button named `generic` — so name uniqueness
is not preserved by new-button creation. -/
theorem claim5_counterexample :
    (newButtonSave genericName "/bin/sh".data [] oneGenericState).map
        (fun r => readButtonNames r.1.appFile 2) =
      some [genericName, genericName] ∧
    ¬ ([genericName, genericName] : List Str).Nodup := by
  refine ⟨by decide, by decide⟩

/-- C5 (amended): new-button creation performs no uniqueness or sentinel
check at all: whatever name is entered, the persisted ordinal list becomes
the old in-memory list with that name appended and `NUMBER_OF_BUTTONS` is
incremented — so a duplicate name, including a second `generic`, can be
introduced whenever the entered name already occurs. -/
theorem claim5_new_button_appends (st : AppState) (name cmdVal argVal v : Str)
    (nob : Int)
    (hv : iniGet st.appFile sectDocker keyNumberOfButtons = some v)
    (hp : parseI32 v = some nob) :
    ∃ st' ev, newButtonSave name cmdVal argVal st = some (st', ev) ∧
      readButtonNames st'.appFile (st.buttons.length + 1) =
        st.buttons ++ [name] ∧
      iniGet st'.appFile sectDocker keyNumberOfButtons =
        some (intRepr (nob + 1)) := by
  simp only [newButtonSave, hv, hp]
  refine ⟨_, _, rfl, ?_, ?_⟩
  · have := readButtonNames_saveButtons
      (setNumberOfButtons st.appFile (nob + 1)) (st.buttons ++ [name])
    simpa using this
  · rw [saveButtons, saveButtonsGo_get_other _ _ 0 _ _ sectDocker_ne_sectButtons,
      setNumberOfButtons]
    exact iniGet_iniSet_same _ _ _ _

theorem claim5_witness :
    ∃ st' ev, newButtonSave "editor".data "/bin/sh".data [] oneGenericState =
        some (st', ev) ∧
      readButtonNames st'.appFile (oneGenericState.buttons.length + 1) =
        oneGenericState.buttons ++ ["editor".data] ∧
      iniGet st'.appFile sectDocker keyNumberOfButtons =
        some (intRepr (1 + 1)) :=
  claim5_new_button_appends oneGenericState "editor".data "/bin/sh".data []
    "1".data 1 (by decide) (by decide)

/-- The config file of the C6 counterexample: `NUMBER_OF_BUTTONS = -1` and
`ICON_WIDTH = 10` (everything else absent and defaulting to 0). -/
def negCountFile : IniFile :=
  iniSet (iniSet iniEmpty sectDocker keyNumberOfButtons "-1".data)
    sectDocker keyIconWidth "10".data

/-- C6 counterexample: `E4Config::read` accepts `NUMBER_OF_BUTTONS = -1`
(the `i32` parse succeeds), producing zero parsed buttons but a window width
computed from the raw value -1, so with `n = 0` parsed buttons the claimed
equation `window_width = n*icon_width + n*margin + 2*frame_margin` fails
(`-10 ≠ 0`). -/
theorem claim6_counterexample :
    (E4Config.read negCountFile).map
        (fun c => (c.buttons.length, c.icon_width, c.margin_between_buttons,
          c.frame_margin, c.window_width)) =
      Except.ok ((0 : Nat), (10 : Int), (0 : Int), (0 : Int), (-10 : Int)) ∧
    (-10 : Int) ≠ (0 : Int) * 10 + (0 : Int) * 0 + 2 * 0 :=
  ⟨by decide, by decide⟩

/-- C6 (amended): for every configuration successfully produced by
`E4Config::read` whose parsed `NUMBER_OF_BUTTONS` is nonnegative (so that it
equals the number of parsed buttons), the derived dimensions satisfy
`window_width = n*icon_width + n*margin_between_buttons + 2*frame_margin`
and `window_height = icon_height + 4*frame_margin` with `n` the button
count; when the parsed value is negative the buttons list is empty but the
width is computed from the negative value and the width equation fails. -/
theorem claim6_dimension_formulas (f : IniFile) (c : E4Config) (nob : Int)
    (hc : E4Config.read f = Except.ok c)
    (hn : readIntField f keyNumberOfButtons = Except.ok nob)
    (h0 : 0 ≤ nob) :
    c.window_width = (c.buttons.length : Int) * c.icon_width +
        (c.buttons.length : Int) * c.margin_between_buttons +
        2 * c.frame_margin ∧
    c.window_height = c.icon_height + 4 * c.frame_margin := by
  obtain ⟨x, y, nob', mbb, fm, iw, ih, hx, hy, hn', hm, hf, hw, hh, rfl⟩ :=
    (read_ok_iff f c).mp hc
  rw [hn] at hn'
  cases Except.ok.inj hn'
  have hlen : (readButtonNames f nob.toNat).length = nob.toNat := by
    simp [readButtonNames]
  constructor
  · show nob * iw + nob * mbb + fm * 2 =
      ((readButtonNames f nob.toNat).length : Int) * iw +
        ((readButtonNames f nob.toNat).length : Int) * mbb + 2 * fm
    rw [hlen, Int.toNat_of_nonneg h0]
    ring
  · show ih + fm * 4 = ih + 4 * fm
    ring

theorem claim6_witness :
    (E4Config.read
        (iniSet (iniSet (iniSet (iniSet (iniSet iniEmpty
            sectDocker keyNumberOfButtons "2".data)
            sectDocker keyIconWidth "16".data)
            sectDocker keyIconHeight "20".data)
            sectDocker keyMarginBetweenButtons "4".data)
            sectDocker keyFrameMargin "3".data) = Except.ok
        { buttons := [[], []]
          margin_between_buttons := 4
          frame_margin := 3
          window_width := 46
          window_height := 32
          icon_width := 16
          icon_height := 20
          x := 0
          y := 0 }) ∧
    (46 : Int) = ((2 : Nat) : Int) * 16 + ((2 : Nat) : Int) * 4 + 2 * 3 ∧
    (32 : Int) = 20 + 4 * 3 := by
  refine ⟨by decide, ?_, ?_⟩
  · have := (claim6_dimension_formulas
      (iniSet (iniSet (iniSet (iniSet (iniSet iniEmpty
          sectDocker keyNumberOfButtons "2".data)
          sectDocker keyIconWidth "16".data)
          sectDocker keyIconHeight "20".data)
          sectDocker keyMarginBetweenButtons "4".data)
          sectDocker keyFrameMargin "3".data)
      { buttons := [[], []]
        margin_between_buttons := 4
        frame_margin := 3
        window_width := 46
        window_height := 32
        icon_width := 16
        icon_height := 20
        x := 0
        y := 0 }
      2 (by decide) (by decide) (by decide)).1
    simpa using this
  · have := (claim6_dimension_formulas
      (iniSet (iniSet (iniSet (iniSet (iniSet iniEmpty
          sectDocker keyNumberOfButtons "2".data)
          sectDocker keyIconWidth "16".data)
          sectDocker keyIconHeight "20".data)
          sectDocker keyMarginBetweenButtons "4".data)
          sectDocker keyFrameMargin "3".data)
      { buttons := [[], []]
        margin_between_buttons := 4
        frame_margin := 3
        window_width := 46
        window_height := 32
        icon_width := 16
        icon_height := 20
        x := 0
        y := 0 }
      2 (by decide) (by decide) (by decide)).2
    simpa using this

/-- C7: for every file whose stored `NUMBER_OF_BUTTONS` parses to exactly the
length of a given ordered list of names (and from which `E4Config::read`
succeeds), calling `save_buttons` with that list and reading the
configuration back yields exactly the same ordered name sequence. -/
theorem claim7_save_read_roundtrip (f : IniFile) (c : E4Config)
    (names : List Str) (nob : Int)
    (hc : E4Config.read f = Except.ok c)
    (hn : readIntField f keyNumberOfButtons = Except.ok nob)
    (hlen : nob = (names.length : Int)) :
    (E4Config.read (saveButtons f names)).map (fun cfg => cfg.buttons) =
      Except.ok names := by
  obtain ⟨x, y, nob', mbb, fm, iw, ih, hx, hy, hn', hm, hf, hw, hh, hcfg⟩ :=
    (read_ok_iff f c).mp hc
  rw [hn] at hn'
  cases Except.ok.inj hn'
  have hread : E4Config.read (saveButtons f names) = Except.ok
      { buttons := readButtonNames (saveButtons f names) nob.toNat
        margin_between_buttons := mbb
        frame_margin := fm
        window_width := nob * iw + nob * mbb + fm * 2
        window_height := ih + fm * 4
        icon_width := iw
        icon_height := ih
        x := x
        y := y } := by
    apply (read_ok_iff _ _).mpr
    refine ⟨x, y, nob, mbb, fm, iw, ih, ?_, ?_, ?_, ?_, ?_, ?_, ?_, rfl⟩ <;>
      rw [readIntField_saveButtons] <;> assumption
  rw [hread]
  show Except.ok (readButtonNames (saveButtons f names) nob.toNat) =
    Except.ok names
  rw [hlen]
  rw [show ((names.length : Int)).toNat = names.length from by simp]
  rw [readButtonNames_saveButtons]

theorem claim7_witness :
    (E4Config.read (saveButtons
        (iniSet (iniSet (iniSet (iniSet (iniSet iniEmpty
            sectDocker keyNumberOfButtons "2".data)
            sectDocker keyIconWidth "16".data)
            sectDocker keyIconHeight "20".data)
            sectDocker keyMarginBetweenButtons "4".data)
            sectDocker keyFrameMargin "3".data)
        ["editor".data, "browser".data])).map (fun cfg => cfg.buttons) =
      Except.ok ["editor".data, "browser".data] :=
  claim7_save_read_roundtrip
    (iniSet (iniSet (iniSet (iniSet (iniSet iniEmpty
        sectDocker keyNumberOfButtons "2".data)
        sectDocker keyIconWidth "16".data)
        sectDocker keyIconHeight "20".data)
        sectDocker keyMarginBetweenButtons "4".data)
        sectDocker keyFrameMargin "3".data)
    { buttons := [[], []]
      margin_between_buttons := 4
      frame_margin := 3
      window_width := 46
      window_height := 32
      icon_width := 16
      icon_height := 20
      x := 0
      y := 0 }
    ["editor".data, "browser".data] 2
    (by decide) (by decide) (by decide)

/-- C8: on a process snapshot whose names and command-line tokens are valid
UTF-8, the liveness check reports a configured path (with base file name
`base`) as running exactly when some live process's image name, or some token
of some live process's command line, contains `base` as a substring. -/
theorem claim8_liveness_matching (sys : ProcSnapshot) (path base : Str)
    (hwf : sys.wellFormed) (hb : fileNameOf path = some base) :
    ∃ b, isProcessRunning sys path = some b ∧
      (b = true ↔ runningSpec sys base) :=
  isProcessRunning_char sys path base hwf hb

/-- The one-process snapshot (a process named `foo`) of the C8 witness. -/
def fooSnapshot : ProcSnapshot := ⟨[⟨some "foo".data, []⟩]⟩

theorem claim8_witness :
    ∃ b, isProcessRunning fooSnapshot "/usr/bin/foo".data = some b ∧
      (b = true ↔ runningSpec fooSnapshot "foo".data) :=
  claim8_liveness_matching fooSnapshot "/usr/bin/foo".data "foo".data
    (by decide) (by decide)

/-- C9: the claim states that the per-cycle scan completes without panicking
for every process snapshot, including ones with non-UTF-8 process names.  It
does not: on a snapshot holding one process whose name is not valid UTF-8,
`process.name().to_str()` is `None` and the `unwrap()` panics (modelled as
`none`), killing the monitor thread's loop. -/
theorem claim9_scan_panics_on_non_utf8 :
    isProcessRunning ⟨[⟨none, []⟩]⟩ "/usr/bin/foo".data = none := by
  decide

/-- C10: for every file from which `E4Config::read` succeeds with a parsed
nonnegative `NUMBER_OF_BUTTONS = n`, the returned buttons list has exactly
`n` entries taken from the ordinal keys `button1..buttonN` in order, an
absent ordinal key yielding the empty-string name at its position rather
than an error or a shorter list. -/
theorem claim10_read_ordinal_buttons (f : IniFile) (c : E4Config) (nob : Int)
    (hc : E4Config.read f = Except.ok c)
    (hn : readIntField f keyNumberOfButtons = Except.ok nob)
    (h0 : 0 ≤ nob) :
    (c.buttons.length : Int) = nob ∧
    ∀ i, ∀ h : i < c.buttons.length,
      c.buttons.get ⟨i, h⟩ =
        (iniGet f sectButtons (buttonKey (i + 1))).getD [] := by
  obtain ⟨x, y, nob', mbb, fm, iw, ih, hx, hy, hn', hm, hf, hw, hh, rfl⟩ :=
    (read_ok_iff f c).mp hc
  rw [hn] at hn'
  cases Except.ok.inj hn'
  constructor
  · show (((readButtonNames f nob.toNat).length : Nat) : Int) = nob
    rw [show (readButtonNames f nob.toNat).length = nob.toNat from by
      simp [readButtonNames]]
    exact Int.toNat_of_nonneg h0
  · intro i h
    show (readButtonNames f nob.toNat).get ⟨i, h⟩ = _
    simp [readButtonNames]

/-- The config file of the C10 witness: `NUMBER_OF_BUTTONS = 2` with
`button1 = alpha` present and `button2` absent. -/
def twoButtonFile : IniFile :=
  iniSet (iniSet iniEmpty sectDocker keyNumberOfButtons "2".data)
    sectButtons (buttonKey 1) "alpha".data

theorem claim10_witness :
    (((["alpha".data, ([] : Str)] : List Str).length : Nat) : Int) = 2 ∧
    ∀ i, ∀ h : i < (["alpha".data, ([] : Str)] : List Str).length,
      (["alpha".data, ([] : Str)] : List Str).get ⟨i, h⟩ =
        (iniGet twoButtonFile sectButtons (buttonKey (i + 1))).getD [] :=
  claim10_read_ordinal_buttons twoButtonFile
    { buttons := ["alpha".data, []]
      margin_between_buttons := 0
      frame_margin := 0
      window_width := 0
      window_height := 0
      icon_width := 0
      icon_height := 0
      x := 0
      y := 0 }
    2 (by decide) (by decide) (by decide)

end E4Docker
